import Mathlib

/-
Verification of the snapback-dev/mcp-server core against its specification.

This file shallowly embeds the relevant TypeScript sources:
  - src/services/AnalysisRouter.ts   (risk mapping, circuit breaker, routing)
  - src/utils/security.ts            (validateFilePath)
  - src/utils/sarif.ts               (SARIF log construction)
  - src/auth.ts                      (hasToolAccess / hasPermission)
  - the snapshot hash module         (blake3Hash / generateSnapshotHash)
  - the MCP tool dispatcher          (tier gates, restore_snapshot handler)
  - the restoreSnapshot wrapper      (restore delegation)

JavaScript numbers are modelled as rationals (ℚ) where fractional values
matter and as Int/Nat for counters and timestamps; JavaScript strings are
Lean Strings; `undefined`/`null` are modelled with Option; thrown errors
with Except.  Definitions are written to be executable so theorems about
concrete inputs can be settled by decide / rfl.
-/

set_option maxRecDepth 4000

/- Decidable equality for Except (needed to settle concrete runs of the
   fallible operations by decide). -/
instance {ε α : Type} [DecidableEq ε] [DecidableEq α] : DecidableEq (Except ε α)
  | Except.ok a, Except.ok b =>
    match decEq a b with
    | isTrue h => isTrue (h ▸ rfl)
    | isFalse h => isFalse (fun hh => h (Except.ok.inj hh))
  | Except.ok _, Except.error _ => isFalse (fun hh => Except.noConfusion hh)
  | Except.error _, Except.ok _ => isFalse (fun hh => Except.noConfusion hh)
  | Except.error e, Except.error f =>
    match decEq e f with
    | isTrue h => isTrue (h ▸ rfl)
    | isFalse h => isFalse (fun hh => h (Except.error.inj hh))

namespace Snapback

/-! ## AnalysisRouter.ts: result types -/

/- `export type RiskLevel = "none" | "low" | "medium" | "high"` -/
inductive RiskLevel
  | none
  | low
  | medium
  | high
deriving DecidableEq

/- `export type Severity = "low" | "medium" | "high"` -/
inductive Severity
  | low
  | medium
  | high
deriving DecidableEq

/- `export interface Issue { type, severity, message, pattern, line? }`
   (the `type` field is one of "secret" | "mock" | "dependency", kept as a String) -/
structure Issue where
  type : String
  severity : Severity
  message : String
  pattern : String
  line : Option Nat
deriving DecidableEq

/- `export interface AnalysisResult` from AnalysisRouter.ts -/
structure AnalysisResult where
  riskLevel : RiskLevel
  confidence : ℚ
  issues : List Issue
  executionTime : ℚ
  upgradePrompt : Bool
  recommendations : List String
deriving DecidableEq

/- `export interface UserContext { tier: "free" | "pro", ... }` -/
inductive Tier2
  | free
  | pro
deriving DecidableEq

structure UserContext where
  tier : Tier2
deriving DecidableEq

/-! ## ASCII lowercasing (model of String.prototype.toLowerCase on the
    inputs that matter here, which are all ASCII) -/

def asciiLowerChar (c : Char) : Char :=
  if 'A' ≤ c ∧ c ≤ 'Z' then Char.ofNat (c.toNat + 32) else c

def asciiLower (s : String) : String :=
  ⟨s.data.map asciiLowerChar⟩

/-! ## AnalysisRouter.mapRiskLevel

    `switch (apiLevel?.toLowerCase()) { case "high": case "critical": return "high";
     case "medium": return "medium"; case "low": return "low"; default: return "none"; }`

    A missing (undefined) level is modelled as `none`: `undefined?.toLowerCase()`
    is `undefined`, which falls into the switch default. -/

def mapRiskLevel (apiLevel : Option String) : RiskLevel :=
  match apiLevel with
  | Option.none => RiskLevel.none
  | Option.some s =>
    let l := asciiLower s
    if l = "high" ∨ l = "critical" then RiskLevel.high
    else if l = "medium" then RiskLevel.medium
    else if l = "low" then RiskLevel.low
    else RiskLevel.none

/-! ## AnalysisRouter.mapAPIResult -/

/- Shape of the upstream API response as consumed by mapAPIResult.
   Fields that the code guards with `||` defaults are Options
   (absent / null); numeric fields are rationals. -/
structure APIResult where
  riskLevel : Option String
  confidence : Option ℚ
  issues : Option (List Issue)
  analysisTimeMs : Option ℚ
  recommendations : Option (List String)

/- JavaScript `x || d` on an optional number: `undefined`, `null` and `0`
   are falsy and yield the default. -/
def jsOrQ (v : Option ℚ) (d : ℚ) : ℚ :=
  match v with
  | Option.none => d
  | Option.some x => if x = 0 then d else x

/- JavaScript `x || []` on an optional list. -/
def jsOrList {α : Type} (v : Option (List α)) : List α :=
  match v with
  | Option.none => []
  | Option.some l => l

/- `mapAPIResult`:
   `const confidence = Math.min(1, Math.max(0, apiResult.confidence || 0.5));` -/
def mapAPIResult (r : APIResult) : AnalysisResult :=
  { riskLevel := mapRiskLevel r.riskLevel
    confidence := min 1 (max 0 (jsOrQ r.confidence (1/2)))
    issues := jsOrList r.issues
    executionTime := jsOrQ r.analysisTimeMs 0
    upgradePrompt := false
    recommendations := jsOrList r.recommendations }

/-! ## AnalysisRouter.addUpgradePrompt -/

def addUpgradePrompt (result : AnalysisResult) (message : String) : AnalysisResult :=
  { result with
    upgradePrompt := true
    recommendations :=
      result.recommendations ++ ["💡 " ++ message ++ " for advanced analysis capabilities."] }

/-! ## CircuitBreaker (AnalysisRouter.ts lines 82-130)

    `closed`, `opened`, `halfOpen` stand for the source's "CLOSED",
    "OPEN", "HALF_OPEN" state strings. -/

inductive CBMode
  | closed
  | opened
  | halfOpen
deriving DecidableEq

structure CircuitBreaker where
  state : CBMode
  failureCount : Nat
  successCount : Nat
  nextAttemptAt : Int
  failureThreshold : Nat
  successThreshold : Nat
  timeout : Int
deriving DecidableEq

/- `new CircuitBreaker()` with the constructor defaults (3, 2, 30000);
   `nextAttemptAt = Date.now()` at construction time. -/
def CircuitBreaker.init (now : Int) : CircuitBreaker :=
  { state := CBMode.closed
    failureCount := 0
    successCount := 0
    nextAttemptAt := now
    failureThreshold := 3
    successThreshold := 2
    timeout := 30000 }

/- Result of one `execute` call: `rejected` is the synthetic
   "Circuit breaker is OPEN" throw (fn not invoked); `succeeded` /
   `failed` mean fn was invoked and resolved / threw (rethrown). -/
inductive CBOutcome
  | rejected
  | succeeded
  | failed
deriving DecidableEq

/- One step of `CircuitBreaker.execute`, with the wrapped call's
   outcome supplied as the boolean `fnOk` and the clock as `now`. -/
def CircuitBreaker.execute (cb : CircuitBreaker) (now : Int) (fnOk : Bool) :
    CBOutcome × CircuitBreaker :=
  if cb.state = CBMode.opened ∧ now < cb.nextAttemptAt then
    (CBOutcome.rejected, cb)
  else
    let cb1 := if cb.state = CBMode.opened then { cb with state := CBMode.halfOpen } else cb
    if fnOk then
      if cb1.state = CBMode.halfOpen then
        let sc := cb1.successCount + 1
        if cb1.successThreshold ≤ sc then
          (CBOutcome.succeeded,
            { cb1 with state := CBMode.closed, failureCount := 0, successCount := 0 })
        else
          (CBOutcome.succeeded, { cb1 with successCount := sc })
      else
        (CBOutcome.succeeded, cb1)
    else
      let fc := cb1.failureCount + 1
      let cb2 := { cb1 with failureCount := fc }
      if cb2.failureThreshold ≤ fc then
        (CBOutcome.failed,
          { cb2 with state := CBMode.opened, nextAttemptAt := now + cb2.timeout })
      else
        (CBOutcome.failed, cb2)

/- Run a sequence of calls, each given as (clock value, call outcome). -/
def runCB (cb : CircuitBreaker) (calls : List (Int × Bool)) : CircuitBreaker :=
  calls.foldl (fun st c => (st.execute c.1 c.2).2) cb

/-! ## AnalysisRouter.analyze / analyzeWithAPI

    The router's collaborators are carried in a state record:
    `guardian` is the local Guardian Lite analyzer (a plug-in behind the
    facade, supplied as a function), `hasApiClient` / `breaker` model
    `this.apiClient` / `this.circuitBreaker` (both set iff an API client
    was passed to the constructor), `mlDetectionFlag` models
    `this.featureFlags.get("ml-detection")`, and `apiOutcome` is what the
    upstream `analyzeFast` call would return (or throw) if invoked.
    The middle component of the result counts upstream invocations. -/

structure RouterState where
  guardian : String → AnalysisResult
  hasApiClient : Bool
  breaker : Option CircuitBreaker
  mlDetectionFlag : Option Bool
  apiOutcome : Except String APIResult

/- `userContext?.tier || "free"` (tier strings are truthy, so `||` only
   replaces a missing context). -/
def tierOf (uc : Option UserContext) : Tier2 :=
  match uc with
  | Option.none => Tier2.free
  | Option.some u => u.tier

/- `analyzeWithAPI`: runs the upstream call through the circuit breaker;
   on a breaker rejection or an upstream error it falls back to the local
   guardian (the source catches and returns `this.guardian.analyze(code)`). -/
def analyzeWithAPI (st : RouterState) (now : Int) (code : String) :
    AnalysisResult × Nat × RouterState :=
  match st.breaker with
  | Option.none => (st.guardian code, 0, st)
  | Option.some cb =>
    let apiOk := match st.apiOutcome with
      | Except.ok _ => true
      | Except.error _ => false
    let r := cb.execute now apiOk
    let st1 := { st with breaker := Option.some r.2 }
    match r.1, st.apiOutcome with
    | CBOutcome.rejected, _ => (st.guardian code, 0, st1)
    | CBOutcome.succeeded, Except.ok api => (mapAPIResult api, 1, st1)
    | CBOutcome.succeeded, Except.error _ => (st.guardian code, 1, st1)
    | CBOutcome.failed, _ => (st.guardian code, 1, st1)

/- `analyze(code, userContext)` decision tree (AnalysisRouter.ts 152-175). -/
def routerAnalyze (st : RouterState) (now : Int) (code : String)
    (uc : Option UserContext) : AnalysisResult × Nat × RouterState :=
  let tier := tierOf uc
  if tier = Tier2.free then
    (addUpgradePrompt (st.guardian code)
      "Free tier users can upgrade to Pro for advanced ML-based analysis", 0, st)
  else if st.hasApiClient ∧ st.breaker.isSome then
    if st.mlDetectionFlag ≠ Option.some false then
      analyzeWithAPI st now code
    else
      (st.guardian code, 0, st)
  else
    (st.guardian code, 0, st)

/- `StubGuardianLite.analyze` from AnalysisRouter.ts (used as a concrete
   guardian in witnesses). -/
def stubGuardian : String → AnalysisResult :=
  fun _ =>
    { riskLevel := RiskLevel.low
      confidence := 1/2
      issues := []
      executionTime := 0
      upgradePrompt := false
      recommendations := [] }

/- A concrete router state with no API client configured. -/
def stubRouterState : RouterState :=
  { guardian := stubGuardian
    hasApiClient := false
    breaker := Option.none
    mlDetectionFlag := Option.none
    apiOutcome := Except.error "no api client" }

/- A concrete upstream result reporting confidence exactly 0. -/
def apiResultZeroConfidence : APIResult :=
  { riskLevel := Option.some "low"
    confidence := Option.some 0
    issues := Option.none
    analysisTimeMs := Option.none
    recommendations := Option.none }

/-- C3 counterexample: in the Closed state a successful call does NOT
reset the failure counter (after failure-then-success it is 1, not 0),
and the breaker reaches Open after three cumulative failures even though
no three of them were consecutive (fail, success, fail, success, fail). -/
theorem C3_counterexample :
    (runCB (CircuitBreaker.init 0) [(0, false), (0, true)]).failureCount ≠ 0 ∧
    (runCB (CircuitBreaker.init 0)
        [(0, false), (0, true), (0, false), (0, true), (0, false)]).state =
      CBMode.opened := by
  decide

/-- C3 (amended): in the Closed state every call is admitted; a successful
call leaves the breaker state (including the failure counter) unchanged
rather than resetting the counter; each failure increments the counter and
the breaker opens as soon as the cumulative count reaches the threshold
(default 3), consecutive or not, setting nextAttemptAt = now + recovery
window; below the threshold it stays Closed. -/
theorem C3_closed_state_behaviour (cb : CircuitBreaker) (now : Int)
    (h : cb.state = CBMode.closed) :
    (∀ ok : Bool, (cb.execute now ok).1 ≠ CBOutcome.rejected) ∧
    (cb.execute now true).2 = cb ∧
    (cb.execute now false).2.failureCount = cb.failureCount + 1 ∧
    (cb.failureThreshold ≤ cb.failureCount + 1 →
      (cb.execute now false).2.state = CBMode.opened ∧
      (cb.execute now false).2.nextAttemptAt = now + cb.timeout) ∧
    (cb.failureCount + 1 < cb.failureThreshold →
      (cb.execute now false).2.state = CBMode.closed) := by
  refine ⟨?_, ?_, ?_, ?_, ?_⟩
  · intro ok
    cases ok
    · simp [CircuitBreaker.execute, h]
      split_ifs <;> simp
    · simp [CircuitBreaker.execute, h]
  · simp [CircuitBreaker.execute, h]
  · simp [CircuitBreaker.execute, h]
    split_ifs <;> simp
  · intro hth
    simp [CircuitBreaker.execute, h, hth]
  · intro hlt
    simp [CircuitBreaker.execute, h]
    split_ifs with h2
    · omega
    · simp [h]

/-- C3 witness: instantiating the amended theorem on a fresh default
breaker: a successful call at time 5 is admitted and leaves the breaker
unchanged. -/
theorem C3_witness :
    (CircuitBreaker.init 0).state = CBMode.closed ∧
    ((CircuitBreaker.init 0).execute 5 true).2 = CircuitBreaker.init 0 :=
  ⟨by decide, (C3_closed_state_behaviour (CircuitBreaker.init 0) 5 (by decide)).2.1⟩

/-- C4 counterexample: the upstream level "safe" is not mapped to "low" as
the claim states; it falls into the switch default and maps to "none". -/
theorem C4_counterexample :
    mapRiskLevel (Option.some "safe") = RiskLevel.none ∧
    RiskLevel.none ≠ RiskLevel.low := by
  decide

/-- C4 (amended): "low" maps to low, "medium" to medium, "high" and
"critical" to high (matching case-insensitively); "safe", a missing level,
and every other value not in the recognized set map to "none". -/
theorem C4_mapRiskLevel_table :
    mapRiskLevel (Option.some "low") = RiskLevel.low ∧
    mapRiskLevel (Option.some "medium") = RiskLevel.medium ∧
    mapRiskLevel (Option.some "high") = RiskLevel.high ∧
    mapRiskLevel (Option.some "critical") = RiskLevel.high ∧
    mapRiskLevel (Option.some "safe") = RiskLevel.none ∧
    mapRiskLevel Option.none = RiskLevel.none ∧
    (∀ s : String,
      asciiLower s ∉ (["high", "critical", "medium", "low"] : List String) →
      mapRiskLevel (Option.some s) = RiskLevel.none) := by
  refine ⟨by decide, by decide, by decide, by decide, by decide, by decide, ?_⟩
  intro s hs
  simp only [List.mem_cons, List.mem_singleton, not_or] at hs
  obtain ⟨h1, h2, h3, h4⟩ := hs
  simp [mapRiskLevel, h1, h2, h3, h4]

/-- C4 witness: the universally quantified branch of the amended theorem
applied at the concrete unknown value "SAFE". -/
theorem C4_witness :
    asciiLower "SAFE" ∉ (["high", "critical", "medium", "low"] : List String) ∧
    mapRiskLevel (Option.some "SAFE") = RiskLevel.none :=
  ⟨by decide, C4_mapRiskLevel_table.2.2.2.2.2.2 "SAFE" (by decide)⟩

/-- C5: on a free-tier call (or an absent user context) the upstream
client is never invoked (0 upstream calls, router state unchanged); the
local guardian result is returned with upgradePrompt = true and exactly
one appended recommendation pointing at the upgrade path. -/
theorem C5_free_tier_local_only (st : RouterState) (now : Int) (code : String)
    (uc : Option UserContext) (h : tierOf uc = Tier2.free) :
    (routerAnalyze st now code uc).2.1 = 0 ∧
    (routerAnalyze st now code uc).2.2 = st ∧
    (routerAnalyze st now code uc).1 =
      addUpgradePrompt (st.guardian code)
        "Free tier users can upgrade to Pro for advanced ML-based analysis" ∧
    (routerAnalyze st now code uc).1.upgradePrompt = true ∧
    (routerAnalyze st now code uc).1.recommendations =
      (st.guardian code).recommendations ++
        ["💡 Free tier users can upgrade to Pro for advanced ML-based analysis" ++
          " for advanced analysis capabilities."] := by
  refine ⟨?_, ?_, ?_, ?_, ?_⟩ <;> simp [routerAnalyze, h, addUpgradePrompt]

/-- C5 witness: a concrete free-tier call (absent user context) on a
router with no API client. -/
theorem C5_witness :
    (routerAnalyze stubRouterState 0 "const x = 1" Option.none).2.1 = 0 ∧
    (routerAnalyze stubRouterState 0 "const x = 1" Option.none).1.upgradePrompt = true :=
  ⟨(C5_free_tier_local_only stubRouterState 0 "const x = 1" Option.none rfl).1,
   (C5_free_tier_local_only stubRouterState 0 "const x = 1" Option.none rfl).2.2.2.1⟩

/-- C10: in mapAPIResult a missing upstream confidence, and a confidence
of exactly 0, are replaced by 0.5 (the falsy default runs before the
clamp); any other confidence value is clamped into [0,1]; the mapped
confidence always lies in [0,1] and the mapped result has
upgradePrompt = false. -/
theorem C10_mapAPIResult_confidence (r : APIResult) :
    (r.confidence = Option.none → (mapAPIResult r).confidence = 1/2) ∧
    (r.confidence = Option.some 0 → (mapAPIResult r).confidence = 1/2) ∧
    (∀ c : ℚ, r.confidence = Option.some c → c ≠ 0 →
      (mapAPIResult r).confidence = min 1 (max 0 c)) ∧
    0 ≤ (mapAPIResult r).confidence ∧
    (mapAPIResult r).confidence ≤ 1 ∧
    (mapAPIResult r).upgradePrompt = false := by
  refine ⟨?_, ?_, ?_, ?_, ?_, ?_⟩
  · intro h
    simp [mapAPIResult, jsOrQ, h]
    norm_num [max_def, min_def]
  · intro h
    simp [mapAPIResult, jsOrQ, h]
    norm_num [max_def, min_def]
  · intro c h hc
    simp [mapAPIResult, jsOrQ, h, hc]
  · exact le_min (by norm_num) (le_max_left 0 _)
  · exact min_le_left 1 _
  · rfl

/-- C10 witness: a concrete upstream result reporting confidence exactly 0
is mapped to confidence 0.5 with upgradePrompt false. -/
theorem C10_witness :
    (mapAPIResult apiResultZeroConfidence).confidence = 1/2 ∧
    (mapAPIResult apiResultZeroConfidence).upgradePrompt = false :=
  ⟨(C10_mapAPIResult_confidence apiResultZeroConfidence).2.1 rfl,
   (C10_mapAPIResult_confidence apiResultZeroConfidence).2.2.2.2.2⟩

/-! ## String helpers (models of the JavaScript string operations used by
    security.ts: includes, startsWith, substring(0,100), split("/")) -/

/- Boolean prefix test on char lists. -/
def isPre : List Char → List Char → Bool
  | [], _ => true
  | _ :: _, [] => false
  | a :: as, b :: bs => a = b && isPre as bs

/- `String.prototype.includes(pat)`. -/
def containsSub (pat : List Char) : List Char → Bool
  | [] => pat.isEmpty
  | c :: rest => isPre pat (c :: rest) || containsSub pat rest

def strContains (s pat : String) : Bool := containsSub pat.data s.data

def strStartsWith (s pre : String) : Bool := isPre pre.data s.data

def strEndsWith (s suf : String) : Bool := isPre suf.data.reverse s.data.reverse

/- `s.substring(0, 100)`. -/
def take100 (s : String) : String := ⟨s.data.take 100⟩

/- `s.split("/")` (JavaScript semantics, e.g. "".split("/") = [""],
   "/b".split("/") = ["", "b"]). -/
def splitCharList : List Char → List (List Char)
  | [] => [[]]
  | c :: rest =>
    let r := splitCharList rest
    if c = '/' then [] :: r
    else
      match r with
      | [] => [[c]]
      | g :: gs => (c :: g) :: gs

def splitOnSlash (s : String) : List String :=
  (splitCharList s.data).map (fun cs => (⟨cs⟩ : String))

/-! ## Node path.posix models (normalize, join, dirname, basename);
    the process runs on a POSIX host (process.platform = "linux"), so
    path.sep = "/" and the win32-only branches of security.ts are dead. -/

/- Segment resolution inside path.posix.normalize: "." and empty segments
   are dropped; ".." pops the previous segment when one exists, is kept
   for relative paths that escape upward (allowAboveRoot), and is dropped
   at the root of absolute paths. -/
def normSegs (allowAboveRoot : Bool) : List String → List String → List String
  | [], acc => acc.reverse
  | seg :: rest, acc =>
    if seg = "" ∨ seg = "." then normSegs allowAboveRoot rest acc
    else if seg = ".." then
      match acc with
      | [] => if allowAboveRoot then normSegs allowAboveRoot rest [".."]
              else normSegs allowAboveRoot rest []
      | top :: acctail =>
        if top = ".." then normSegs allowAboveRoot rest (".." :: top :: acctail)
        else normSegs allowAboveRoot rest acctail
    else normSegs allowAboveRoot rest (seg :: acc)

def joinSlash : List String → String
  | [] => ""
  | [x] => x
  | x :: y :: xs => x ++ "/" ++ joinSlash (y :: xs)

/- `path.posix.normalize`. -/
def normalizePosix (p : String) : String :=
  if p = "" then "."
  else
    let abs := strStartsWith p "/"
    let trail := strEndsWith p "/"
    let body := joinSlash (normSegs (!abs) (splitOnSlash p) [])
    if body = "" then
      if abs then "/" else if trail then "./" else "."
    else
      let body2 := if trail then body ++ "/" else body
      if abs then "/" ++ body2 else body2

/- `path.posix.join(a, b)`: empty parts are skipped, the rest are joined
   with "/" and normalized; with no parts the result is ".". -/
def joinPosix (a b : String) : String :=
  if a = "" then (if b = "" then "." else normalizePosix b)
  else if b = "" then normalizePosix a
  else normalizePosix (a ++ "/" ++ b)

def isAbsolutePosix (p : String) : Bool := strStartsWith p "/"

/- `path.posix.dirname`. -/
def dirnamePosix (p : String) : String :=
  match p.data with
  | [] => "."
  | c0 :: rest =>
    let r1 := rest.reverse.dropWhile (fun c => c = '/')
    let r2 := r1.dropWhile (fun c => c ≠ '/')
    match r2 with
    | [] => if c0 = '/' then "/" else "."
    | _ :: r2tail =>
      if c0 = '/' ∧ r2tail = [] then "//"
      else (⟨c0 :: r2tail.reverse⟩ : String)

/- `path.posix.basename` (without extension stripping). -/
def basenamePosix (p : String) : String :=
  let r1 := p.data.reverse.dropWhile (fun c => c = '/')
  (⟨(r1.takeWhile (fun c => c ≠ '/')).reverse⟩ : String)

/-! ## security.ts: validateFilePath -/

/- `class SecurityError extends Error`. -/
structure SecurityErr where
  message : String
deriving DecidableEq

/- One telemetry event sent through trackSecurityViolation: the coarse
   reason tag, the `substring(0, 100)`-truncated path-derived detail
   fields, and the remaining detail fields (the matched encoded pattern
   or the wrapped exception text, which the source does not truncate). -/
structure Violation where
  reason : String
  samples : List String
  extra : List String
deriving DecidableEq

/- The file-system surface used by validateFilePath: `realpathSync`
   (resolved path, or a thrown error carrying a message) and
   `existsSync`. -/
structure JsFS where
  realpath : String → Except String String
  existsSync : String → Bool

def encodedPatterns : List String :=
  ["%2e%2e%2f", "%2e%2e/", "..%2f", "%252e", "%252f", "%2e%2e%5c", "..%5c"]

/- The tail of validateFilePath once a candidate real path is known:
   resolve the workspace root (an exception here is wrapped by the outer
   catch into "Path validation failed: ..."), check the workspace
   boundary, and re-check for null bytes. -/
def boundaryCheck (fs : JsFS) (realPath workspaceRoot filePath : String) :
    Except SecurityErr String × List Violation :=
  match fs.realpath workspaceRoot with
  | Except.error msg =>
    (Except.error ⟨"Path validation failed: " ++ msg⟩,
     [⟨"validation_exception", [take100 filePath], [msg]⟩])
  | Except.ok wsReal =>
    if !strStartsWith realPath (wsReal ++ "/") && realPath != wsReal then
      (Except.error ⟨"Path outside workspace: " ++ realPath ++ " not in " ++ wsReal⟩,
       [⟨"outside_workspace", [take100 realPath, take100 wsReal], []⟩])
    else if strContains realPath "\x00" then
      (Except.error ⟨"Path contains null bytes"⟩,
       [⟨"null_bytes_resolved", [take100 realPath], []⟩])
    else
      (Except.ok realPath, [])

/- `const absolutePath = path.isAbsolute(normalized) ? normalized :
   path.join(workspaceRoot, normalized);` -/
def absCandidate (workspaceRoot normalized : String) : String :=
  if isAbsolutePosix normalized then normalized else joinPosix workspaceRoot normalized

/- `validateFilePath(filePath, workspaceRoot)` from security.ts, on a
   POSIX host.  The result pairs the returned path / thrown SecurityError
   with the telemetry events emitted on the way. -/
def validateFilePath (fs : JsFS) (filePath workspaceRoot : String) :
    Except SecurityErr String × List Violation :=
  if strContains filePath "\x00" then
    (Except.error ⟨"Null bytes in path not allowed"⟩,
     [⟨"null_bytes", [take100 filePath], []⟩])
  else if filePath = "" ∨ filePath.data.all (fun c => c.isWhitespace) then
    (Except.error ⟨"File path cannot be empty"⟩,
     [⟨"empty_path", [take100 filePath], []⟩])
  else
    let normalized := normalizePosix filePath
    let absolutePath := absCandidate workspaceRoot normalized
    let lowerPath := asciiLower normalized
    if encodedPatterns.any (fun pat => strContains lowerPath pat) then
      (Except.error ⟨"Encoded path traversal not allowed"⟩,
       [⟨"encoded_traversal", [take100 normalized],
         (encodedPatterns.filter (fun pat => strContains lowerPath pat)).take 1⟩])
    else if (splitOnSlash normalized).any (fun seg => seg = "..") then
      (Except.error ⟨"Path traversal not allowed"⟩,
       [⟨"path_traversal", [take100 normalized], []⟩])
    else
      match fs.realpath absolutePath with
      | Except.ok realPath => boundaryCheck fs realPath workspaceRoot filePath
      | Except.error _ =>
        let parentDir := dirnamePosix absolutePath
        if !fs.existsSync parentDir then
          (Except.error ⟨"Parent directory does not exist: " ++ parentDir⟩,
           [⟨"parent_not_exist", [take100 absolutePath, take100 parentDir], []⟩])
        else
          match fs.realpath parentDir with
          | Except.ok realParent =>
            boundaryCheck fs (joinPosix realParent (basenamePosix absolutePath))
              workspaceRoot filePath
          | Except.error _ =>
            (Except.error ⟨"Cannot resolve parent directory: " ++ parentDir⟩,
             [⟨"parent_resolution_failed", [take100 absolutePath, take100 parentDir], []⟩])

/- A workspace "/ws" that exists and resolves to itself; nothing inside
   it exists yet. -/
def fsWs : JsFS :=
  { realpath := fun p =>
      if p = "/ws" then Except.ok "/ws"
      else Except.error "ENOENT: no such file or directory"
    existsSync := fun p => p == "/ws" }

/- A file system in which "/etc/passwd" really exists outside the
   workspace "/ws". -/
def fsEtc : JsFS :=
  { realpath := fun p =>
      if p = "/ws" then Except.ok "/ws"
      else if p = "/etc/passwd" then Except.ok "/etc/passwd"
      else Except.error "ENOENT: no such file or directory"
    existsSync := fun _ => false }

/- The SecurityError raised for "/etc/passwd" against root "/ws". -/
def outsideErr : SecurityErr := ⟨"Path outside workspace: /etc/passwd not in /ws"⟩

/- The telemetry event emitted alongside outsideErr. -/
def outsideViolation : Violation :=
  ⟨"outside_workspace", [take100 "/etc/passwd", take100 "/ws"], []⟩

/-! ### Lemmas about validateFilePath -/

theorem take100_length (s : String) : (take100 s).length ≤ 100 := by
  show (s.data.take 100).length ≤ 100
  rw [List.length_take]
  exact min_le_left _ _

theorem isPre_append (a b : List Char) : isPre a (a ++ b) = true := by
  induction a with
  | nil => rfl
  | cons x xs ih => simp [isPre, ih]

theorem strStartsWith_append (a b : String) : strStartsWith (a ++ b) a = true := by
  have hd : (a ++ b).data = a.data ++ b.data := rfl
  simp [strStartsWith, hd, isPre_append]

theorem boundaryCheck_ok {fs : JsFS} {rp root f r : String}
    (h : (boundaryCheck fs rp root f).1 = Except.ok r) :
    r = rp ∧ ∃ w, fs.realpath root = Except.ok w ∧
      (rp = w ∨ strStartsWith rp (w ++ "/") = true) := by
  unfold boundaryCheck at h
  rcases hw : fs.realpath root with msg | wsReal
  · rw [hw] at h; simp at h
  · rw [hw] at h
    dsimp only at h
    by_cases h1 : (!strStartsWith rp (wsReal ++ "/") && rp != wsReal) = true
    · rw [if_pos h1] at h; simp at h
    · rw [if_neg h1] at h
      by_cases h2 : strContains rp "\x00" = true
      · rw [if_pos h2] at h; simp at h
      · rw [if_neg h2] at h
        simp at h
        refine ⟨h.symm, wsReal, rfl, ?_⟩
        simp only [Bool.and_eq_true, Bool.not_eq_true', bne_iff_ne, not_and_or] at h1
        rcases h1 with h1 | h1
        · right
          simpa using h1
        · left
          simpa using h1

theorem validate_ok_inside {fs : JsFS} {p root r : String}
    (h : (validateFilePath fs p root).1 = Except.ok r) :
    ∃ w, fs.realpath root = Except.ok w ∧ (r = w ∨ strStartsWith r (w ++ "/") = true) := by
  dsimp only [validateFilePath] at h
  split_ifs at h with h1 h2 h3 h4 h5
  · rcases hra : fs.realpath (absCandidate root (normalizePosix p)) with msg | realPath
    · rw [hra] at h; simp at h
    · rw [hra] at h
      dsimp only at h
      obtain ⟨he, w, hw, hin⟩ := boundaryCheck_ok h
      subst he
      exact ⟨w, hw, hin⟩
  · rcases hra : fs.realpath (absCandidate root (normalizePosix p)) with msg | realPath
    · rw [hra] at h
      dsimp only at h
      rcases hrp : fs.realpath (dirnamePosix (absCandidate root (normalizePosix p)))
          with m2 | realParent
      · rw [hrp] at h; simp at h
      · rw [hrp] at h
        dsimp only at h
        obtain ⟨he, w, hw, hin⟩ := boundaryCheck_ok h
        subst he
        exact ⟨w, hw, hin⟩
    · rw [hra] at h
      dsimp only at h
      obtain ⟨he, w, hw, hin⟩ := boundaryCheck_ok h
      subst he
      exact ⟨w, hw, hin⟩

theorem validate_nul_rejects (fs : JsFS) (p root : String)
    (h : strContains p "\x00" = true) :
    (validateFilePath fs p root).1 = Except.error ⟨"Null bytes in path not allowed"⟩ := by
  simp [validateFilePath, h]

theorem validate_dotdot_rejects (fs : JsFS) (p root : String)
    (h : ((splitOnSlash (normalizePosix p)).any fun seg => seg = "..") = true)
    (r : String) : (validateFilePath fs p root).1 ≠ Except.ok r := by
  intro hok
  dsimp only [validateFilePath] at hok
  split_ifs at hok

theorem boundaryCheck_samples {fs : JsFS} {rp root f : String} :
    ∀ v ∈ (boundaryCheck fs rp root f).2, ∀ s ∈ v.samples, s.length ≤ 100 := by
  intro v hv s hs
  unfold boundaryCheck at hv
  rcases hw : fs.realpath root with msg | wsReal
  · rw [hw] at hv
    simp at hv
    subst hv
    simp at hs
    subst hs
    exact take100_length _
  · rw [hw] at hv
    dsimp only at hv
    split_ifs at hv with hb1 hb2
    · simp at hv
      subst hv
      simp at hs
      rcases hs with hs | hs <;> (subst hs; exact take100_length _)
    · simp at hv
      subst hv
      simp at hs
      subst hs
      exact take100_length _
    · simp at hv

theorem boundaryCheck_message {fs : JsFS} {rp root f : String} {e : SecurityErr}
    (h : (boundaryCheck fs rp root f).1 = Except.error e) :
    e.message = "Path contains null bytes" ∨
    strStartsWith e.message "Path outside workspace: " = true ∨
    strStartsWith e.message "Path validation failed: " = true := by
  unfold boundaryCheck at h
  rcases hw : fs.realpath root with msg | wsReal
  · rw [hw] at h
    simp at h
    subst h
    right; right
    exact strStartsWith_append _ _
  · rw [hw] at h
    dsimp only at h
    split_ifs at h with hb1 hb2
    · simp at h
      subst h
      right; left
      exact strStartsWith_append _ _
    · simp at h
      subst h
      left
      rfl

theorem validate_samples (fs : JsFS) (p root : String) :
    ∀ v ∈ (validateFilePath fs p root).2, ∀ s ∈ v.samples, s.length ≤ 100 := by
  intro v hv s hs
  dsimp only [validateFilePath] at hv
  split_ifs at hv with h1 h2 h3 h4 h5
  · simp at hv; subst hv; simp at hs; subst hs; exact take100_length _
  · simp at hv; subst hv; simp at hs; subst hs; exact take100_length _
  · simp at hv; subst hv; simp at hs; subst hs; exact take100_length _
  · simp at hv; subst hv; simp at hs; subst hs; exact take100_length _
  · rcases hra : fs.realpath (absCandidate root (normalizePosix p)) with msg | realPath
    · rw [hra] at hv
      simp at hv
      subst hv
      simp at hs
      rcases hs with hs | hs <;> (subst hs; exact take100_length _)
    · rw [hra] at hv
      dsimp only at hv
      exact boundaryCheck_samples v hv s hs
  · rcases hra : fs.realpath (absCandidate root (normalizePosix p)) with msg | realPath
    · rw [hra] at hv
      dsimp only at hv
      rcases hrp : fs.realpath (dirnamePosix (absCandidate root (normalizePosix p)))
          with m2 | realParent
      · rw [hrp] at hv
        simp at hv
        subst hv
        simp at hs
        rcases hs with hs | hs <;> (subst hs; exact take100_length _)
      · rw [hrp] at hv
        dsimp only at hv
        exact boundaryCheck_samples v hv s hs
    · rw [hra] at hv
      dsimp only at hv
      exact boundaryCheck_samples v hv s hs

theorem validate_messages (fs : JsFS) (p root : String) (e : SecurityErr)
    (h : (validateFilePath fs p root).1 = Except.error e) :
    e.message = "Null bytes in path not allowed" ∨
    e.message = "File path cannot be empty" ∨
    e.message = "Encoded path traversal not allowed" ∨
    e.message = "Path traversal not allowed" ∨
    e.message = "Path contains null bytes" ∨
    strStartsWith e.message "Parent directory does not exist: " = true ∨
    strStartsWith e.message "Cannot resolve parent directory: " = true ∨
    strStartsWith e.message "Path outside workspace: " = true ∨
    strStartsWith e.message "Path validation failed: " = true := by
  dsimp only [validateFilePath] at h
  split_ifs at h with h1 h2 h3 h4 h5
  · simp at h; subst h; left; rfl
  · simp at h; subst h; right; left; rfl
  · simp at h; subst h; right; right; left; rfl
  · simp at h; subst h; right; right; right; left; rfl
  · rcases hra : fs.realpath (absCandidate root (normalizePosix p)) with msg | realPath
    · rw [hra] at h
      simp at h
      subst h
      right; right; right; right; right; left
      exact strStartsWith_append _ _
    · rw [hra] at h
      dsimp only at h
      rcases boundaryCheck_message h with hm | hm | hm
      · right; right; right; right; left; exact hm
      · right; right; right; right; right; right; right; left; exact hm
      · right; right; right; right; right; right; right; right; exact hm
  · rcases hra : fs.realpath (absCandidate root (normalizePosix p)) with msg | realPath
    · rw [hra] at h
      dsimp only at h
      rcases hrp : fs.realpath (dirnamePosix (absCandidate root (normalizePosix p)))
          with m2 | realParent
      · rw [hrp] at h
        simp at h
        subst h
        right; right; right; right; right; right; left
        exact strStartsWith_append _ _
      · rw [hrp] at h
        dsimp only at h
        rcases boundaryCheck_message h with hm | hm | hm
        · right; right; right; right; left; exact hm
        · right; right; right; right; right; right; right; left; exact hm
        · right; right; right; right; right; right; right; right; exact hm
    · rw [hra] at h
      dsimp only at h
      rcases boundaryCheck_message h with hm | hm | hm
      · right; right; right; right; left; exact hm
      · right; right; right; right; right; right; right; left; exact hm
      · right; right; right; right; right; right; right; right; exact hm

/-- C1 counterexample: the input "a/../b" contains a path segment exactly
equal to "..", yet validateFilePath accepts it (normalization resolves the
".." away before the segment check, and "/ws/b" is inside the workspace),
so the claim "throws for every path with a segment exactly equal to dot-dot"
is false as stated. -/
theorem C1_counterexample :
    ((splitOnSlash "a/../b").any fun seg => seg = "..") = true ∧
    (validateFilePath fsWs "a/../b" "/ws").1 = Except.ok "/ws/b" := by
  decide

/-- C1 (amended): validateFilePath either returns a path inside the
resolved workspace root (equal to it or strictly under it) or throws a
SecurityError; it throws for every input containing a NUL byte; it throws
for every path whose NORMALIZED form still has a segment exactly equal to
".." (so "../x" throws, while segments resolved away by normalization, as
in "a/../b", can be accepted); and it accepts "config..json", whose name
merely contains ".." as a substring, when it resolves inside the workspace
and the parent directory exists. -/
theorem C1_validateFilePath_contract :
    (∀ fs p root r, (validateFilePath fs p root).1 = Except.ok r →
      ∃ w, fs.realpath root = Except.ok w ∧ (r = w ∨ strStartsWith r (w ++ "/") = true)) ∧
    (∀ fs p root, strContains p "\x00" = true →
      (validateFilePath fs p root).1 = Except.error ⟨"Null bytes in path not allowed"⟩) ∧
    (∀ fs p root,
      ((splitOnSlash (normalizePosix p)).any fun seg => seg = "..") = true →
      ∀ r, (validateFilePath fs p root).1 ≠ Except.ok r) ∧
    (validateFilePath fsWs "config..json" "/ws").1 = Except.ok "/ws/config..json" :=
  ⟨fun _ _ _ _ h => validate_ok_inside h,
   validate_nul_rejects,
   validate_dotdot_rejects,
   by decide⟩

/-- C1 witness: the amended contract applied at concrete inputs: a path
with an embedded NUL byte is rejected; "../x" normalizes with a leading
".." segment and is rejected; the accepted "b" resolves strictly inside
the resolved root "/ws". -/
theorem C1_witness :
    strContains "a\x00b" "\x00" = true ∧
    (validateFilePath fsWs "a\x00b" "/ws").1 =
      Except.error ⟨"Null bytes in path not allowed"⟩ ∧
    ((splitOnSlash (normalizePosix "../x")).any fun seg => seg = "..") = true ∧
    (validateFilePath fsWs "../x" "/ws").1 ≠ Except.ok "/ws/x" ∧
    ("/ws/b" = "/ws" ∨ strStartsWith "/ws/b" ("/ws" ++ "/") = true) := by
  refine ⟨by decide,
    C1_validateFilePath_contract.2.1 fsWs "a\x00b" "/ws" (by decide),
    by decide,
    C1_validateFilePath_contract.2.2.1 fsWs "../x" "/ws" (by decide) "/ws/x",
    ?_⟩
  obtain ⟨w, hw, hin⟩ := C1_validateFilePath_contract.1 fsWs "b" "/ws" "/ws/b" (by decide)
  have h0 : fsWs.realpath "/ws" = Except.ok "/ws" := by decide
  rw [h0] at hw
  have hww : "/ws" = w := Except.ok.inj hw
  rw [← hww] at hin
  exact hin

/-- C9 counterexample: for the rejected input "/etc/passwd" the
SecurityError raised to the caller contains the full resolved filesystem
path "/etc/passwd" in its message, contradicting the claim that the error
never contains the candidate or resolved path. -/
theorem C9_counterexample :
    (validateFilePath fsEtc "/etc/passwd" "/ws").1 = Except.error outsideErr ∧
    strContains outsideErr.message "/etc/passwd" = true := by
  decide

/-- C9 (amended): every telemetry event carries only path samples
truncated to at most 100 characters, and the caller-visible error message
is either one of the fixed path-free sentences (null bytes, empty path,
encoded traversal, segment traversal, resolved null bytes) or one of the
four message families that DO embed the offending path after a fixed
prefix (parent-not-exist, parent-resolution-failure, outside-workspace,
wrapped validation exception). -/
theorem C9_messages_and_telemetry :
    (∀ fs p root, ∀ v ∈ (validateFilePath fs p root).2, ∀ s ∈ v.samples, s.length ≤ 100) ∧
    (∀ fs p root e, (validateFilePath fs p root).1 = Except.error e →
      e.message = "Null bytes in path not allowed" ∨
      e.message = "File path cannot be empty" ∨
      e.message = "Encoded path traversal not allowed" ∨
      e.message = "Path traversal not allowed" ∨
      e.message = "Path contains null bytes" ∨
      strStartsWith e.message "Parent directory does not exist: " = true ∨
      strStartsWith e.message "Cannot resolve parent directory: " = true ∨
      strStartsWith e.message "Path outside workspace: " = true ∨
      strStartsWith e.message "Path validation failed: " = true) :=
  ⟨validate_samples, validate_messages⟩

/-- C9 witness: the amended theorem applied to the concrete rejection of
"/etc/passwd" against root "/ws": its telemetry sample is within the
100-character bound and its error message is catalogued. -/
theorem C9_witness :
    (take100 "/etc/passwd").length ≤ 100 ∧
    (outsideErr.message = "Null bytes in path not allowed" ∨
     outsideErr.message = "File path cannot be empty" ∨
     outsideErr.message = "Encoded path traversal not allowed" ∨
     outsideErr.message = "Path traversal not allowed" ∨
     outsideErr.message = "Path contains null bytes" ∨
     strStartsWith outsideErr.message "Parent directory does not exist: " = true ∨
     strStartsWith outsideErr.message "Cannot resolve parent directory: " = true ∨
     strStartsWith outsideErr.message "Path outside workspace: " = true ∨
     strStartsWith outsideErr.message "Path validation failed: " = true) :=
  ⟨C9_messages_and_telemetry.1 fsEtc "/etc/passwd" "/ws" outsideViolation (by decide)
      (take100 "/etc/passwd") (by decide),
   C9_messages_and_telemetry.2 fsEtc "/etc/passwd" "/ws" outsideErr (by decide)⟩

/-! ## The snapshot hash module (blake3Hash / generateSnapshotHash)

    blake3Hash is, per its own source, "SHA-256 as a placeholder": we embed
    SHA-256 (FIPS 180-4) directly, over UTF-8 bytes, with 32-bit words as
    Nat mod 2^32. -/

def w32 (x : Nat) : Nat := x % 4294967296

def rotr32 (n x : Nat) : Nat := w32 ((x >>> n) ||| (x <<< (32 - n)))

def xnot32 (x : Nat) : Nat := x ^^^ 4294967295

def bigSigma0 (x : Nat) : Nat := rotr32 2 x ^^^ rotr32 13 x ^^^ rotr32 22 x
def bigSigma1 (x : Nat) : Nat := rotr32 6 x ^^^ rotr32 11 x ^^^ rotr32 25 x
def smallSigma0 (x : Nat) : Nat := rotr32 7 x ^^^ rotr32 18 x ^^^ (x >>> 3)
def smallSigma1 (x : Nat) : Nat := rotr32 17 x ^^^ rotr32 19 x ^^^ (x >>> 10)
def chFn (x y z : Nat) : Nat := (x &&& y) ^^^ (xnot32 x &&& z)
def majFn (x y z : Nat) : Nat := (x &&& y) ^^^ (x &&& z) ^^^ (y &&& z)

def shaK : List Nat :=
  [1116352408, 1899447441, 3049323471, 3921009573, 961987163, 1508970993,
   2453635748, 2870763221, 3624381080, 310598401, 607225278, 1426881987,
   1925078388, 2162078206, 2614888103, 3248222580, 3835390401, 4022224774,
   264347078, 604807628, 770255983, 1249150122, 1555081692, 1996064986,
   2554220882, 2821834349, 2952996808, 3210313671, 3336571891, 3584528711,
   113926993, 338241895, 666307205, 773529912, 1294757372, 1396182291,
   1695183700, 1986661051, 2177026350, 2456956037, 2730485921, 2820302411,
   3259730800, 3345764771, 3516065817, 3600352804, 4094571909, 275423344,
   430227734, 506948616, 659060556, 883997877, 958139571, 1322822218,
   1537002063, 1747873779, 1955562222, 2024104815, 2227730452, 2361852424,
   2428436474, 2756734187, 3204031479, 3329325298]

def shaH0 : List Nat :=
  [1779033703, 3144134277, 1013904242, 2773480762,
   1359893119, 2600822924, 528734635, 1541459225]

def beBytes (n count : Nat) : List Nat :=
  (List.range count).reverse.map (fun i => (n >>> (8 * i)) % 256)

def padMsg (msg : List Nat) : List Nat :=
  let len := msg.length
  msg ++ [128] ++ List.replicate ((119 - len % 64) % 64) 0 ++ beBytes (8 * len) 8

def chunksGo : Nat → List Nat → List (List Nat)
  | 0, _ => []
  | _, [] => []
  | fuel + 1, l => l.take 64 :: chunksGo fuel (l.drop 64)

def chunks64 (l : List Nat) : List (List Nat) := chunksGo (l.length + 1) l

def toWords : List Nat → List Nat
  | b0 :: b1 :: b2 :: b3 :: rest =>
    ((b0 <<< 24) ||| (b1 <<< 16) ||| (b2 <<< 8) ||| b3) :: toWords rest
  | _ => []

def extendW : Nat → List Nat → List Nat
  | 0, w => w
  | n + 1, w =>
    let t := w32 (smallSigma1 (w.getD (w.length - 2) 0) + w.getD (w.length - 7) 0 +
      smallSigma0 (w.getD (w.length - 15) 0) + w.getD (w.length - 16) 0)
    extendW n (w ++ [t])

def roundFn (st : List Nat) (ki wi : Nat) : List Nat :=
  match st with
  | [a, b, c, d, e, f, g, h] =>
    let t1 := w32 (h + bigSigma1 e + chFn e f g + ki + wi)
    let t2 := w32 (bigSigma0 a + majFn a b c)
    [w32 (t1 + t2), a, b, c, w32 (d + t1), e, f, g]
  | _ => st

def compressRounds : List Nat → List Nat → List Nat → List Nat
  | st, k :: ks, w :: ws => compressRounds (roundFn st k w) ks ws
  | st, _, _ => st

def processChunk (h : List Nat) (chunk : List Nat) : List Nat :=
  let w := extendW 48 (toWords chunk)
  let st := compressRounds h shaK w
  (h.zip st).map (fun p => w32 (p.1 + p.2))

def sha256Bytes (msg : List Nat) : List Nat :=
  let final := (chunks64 (padMsg msg)).foldl processChunk shaH0
  final.foldr (fun wrd acc => beBytes wrd 4 ++ acc) []

def hexDigit (n : Nat) : Char :=
  if n < 10 then Char.ofNat (48 + n) else Char.ofNat (87 + n)

def toHex (bytes : List Nat) : String :=
  ⟨bytes.foldr (fun b acc => hexDigit (b / 16) :: hexDigit (b % 16) :: acc) []⟩

def utf8Char (c : Char) : List Nat :=
  let n := c.toNat
  if n < 0x80 then [n]
  else if n < 0x800 then [0xC0 ||| (n >>> 6), 0x80 ||| (n &&& 0x3F)]
  else if n < 0x10000 then
    [0xE0 ||| (n >>> 12), 0x80 ||| ((n >>> 6) &&& 0x3F), 0x80 ||| (n &&& 0x3F)]
  else
    [0xF0 ||| (n >>> 18), 0x80 ||| ((n >>> 12) &&& 0x3F),
     0x80 ||| ((n >>> 6) &&& 0x3F), 0x80 ||| (n &&& 0x3F)]

def utf8Encode (s : String) : List Nat :=
  s.data.foldr (fun c acc => utf8Char c ++ acc) []

def blake3Hash (s : String) : String := toHex (sha256Bytes (utf8Encode s))

/- Sanity anchors for the SHA-256 embedding: the FIPS 180-4 test vectors. -/
theorem sha256_abc :
    blake3Hash "abc" =
      "ba7816bf8f01cfea414140de5dae2223b00361a396177a9cb410ff61f20015ad" := by
  decide

theorem sha256_empty :
    blake3Hash "" =
      "e3b0c44298fc1c149afbf4c8996fb92427ae41e4649b934ca495991b7852b855" := by
  decide

/- A file entry as consumed by generateSnapshotHash:
   `Array<{ path: string; content: string }>`. -/
structure SFile where
  path : String
  content : String
deriving DecidableEq

/- Stable insertion sort: the model of `[...files].sort(comparator)`.
   ECMAScript requires Array.prototype.sort to be stable, and with a
   consistent comparator the stable sorted permutation is unique, so any
   stable sorting algorithm is a faithful model; x is inserted before the
   first element y with compare(x, y) <= 0, which preserves the original
   order of compare-equal elements. -/
def insertSorted {α : Type} (le : α → α → Bool) (x : α) : List α → List α
  | [] => [x]
  | y :: ys => if le x y then x :: y :: ys else y :: insertSorted le x ys

def stableSort {α : Type} (le : α → α → Bool) (l : List α) : List α :=
  l.foldr (insertSorted le) []

/- Model of `String.prototype.localeCompare` under the ICU root collation
   (the Node default), restricted to ASCII alphanumeric strings: strings
   are compared primarily case-insensitively (uppercase folded onto
   lowercase, digits below letters), with a lowercase-before-uppercase
   tiebreak; for such strings this is exactly ICU root ordering.  caseBit
   is the tertiary weight, primaryWeight the primary weight.
   Outside that domain the model diverges from ICU: this model never
   compares distinct strings equal, while ICU returns 0 for distinct
   canonically-equivalent strings (NFC vs NFD) and for strings differing
   only in completely-ignorable characters, and it orders ASCII
   punctuation unlike code points.  Every theorem whose truth depends on
   the collation's values therefore carries an ASCII-alphanumeric
   hypothesis on the paths involved. -/
def caseBit (c : Char) : Nat := if 65 ≤ c.toNat ∧ c.toNat ≤ 90 then 1 else 0

def primaryWeight (c : Char) : Nat :=
  if 65 ≤ c.toNat ∧ c.toNat ≤ 90 then c.toNat + 32 else c.toNat

def cmpListNat : List Nat → List Nat → Ordering
  | [], [] => Ordering.eq
  | [], _ :: _ => Ordering.lt
  | _ :: _, [] => Ordering.gt
  | a :: as, b :: bs =>
    if a < b then Ordering.lt else if b < a then Ordering.gt else cmpListNat as bs

/- Two-pass collation: whole-string primary comparison first, then the
   case tiebreak. -/
def localeOrd (a b : String) : Ordering :=
  match cmpListNat (a.data.map primaryWeight) (b.data.map primaryWeight) with
  | Ordering.eq => cmpListNat (a.data.map caseBit) (b.data.map caseBit)
  | o => o

def localeCompare (a b : String) : Int :=
  match localeOrd a b with
  | Ordering.lt => -1
  | Ordering.eq => 0
  | Ordering.gt => 1

def fileLe (a b : SFile) : Bool := localeCompare a.path b.path ≤ 0

def joinBar : List String → String
  | [] => ""
  | [x] => x
  | x :: y :: xs => x ++ "|" ++ joinBar (y :: xs)

/- `generateSnapshotHash(files)`:
   sort by `a.path.localeCompare(b.path)`, join `path:blake3Hash(content)`
   with "|", hash the joined string. -/
def generateSnapshotHash (files : List SFile) : String :=
  let sortedFiles := stableSort fileLe files
  let combined := joinBar (sortedFiles.map (fun f => f.path ++ ":" ++ blake3Hash f.content))
  blake3Hash combined

/- Byte-lexicographic path order on UTF-8 bytes: the order the SPEC
   prescribes for the snapshot hash. -/
def byteLexFileLe (a b : SFile) : Bool :=
  cmpListNat (utf8Encode a.path) (utf8Encode b.path) ≠ Ordering.gt

/- The snapshot hash as the spec words it (refinement reference): sort
   file entries by path in byte-lexicographic order, hash each content
   with the content digest, join "path:digest" with "|", hash the join. -/
def snapshotHashSpec (files : List SFile) : String :=
  let sortedFiles := stableSort byteLexFileLe files
  let combined := joinBar (sortedFiles.map (fun f => f.path ++ ":" ++ blake3Hash f.content))
  blake3Hash combined

/-- C7 counterexample: generateSnapshotHash sorts with localeCompare, not
byte-lexicographically; for the mixed-case paths "B" and "a" the locale
collation puts "a" first while byte order puts "B" first, and the
resulting digests differ, so the claim is false as stated. -/
theorem C7_counterexample :
    generateSnapshotHash [⟨"B", "x"⟩, ⟨"a", "y"⟩] ≠
      snapshotHashSpec [⟨"B", "x"⟩, ⟨"a", "y"⟩] := by
  decide

/-- C8 counterexample: permutation invariance fails for file lists in
which two entries share a path: sorting is stable, so the compare-equal
entries keep their input order and the joined "path:digest" strings (and
hence the hashes) differ between the two orders. -/
theorem C8_counterexample :
    generateSnapshotHash [⟨"p", "x"⟩, ⟨"p", "y"⟩] ≠
      generateSnapshotHash [⟨"p", "y"⟩, ⟨"p", "x"⟩] := by
  decide

theorem charToNat_inj (c d : Char) (h : c.toNat = d.toNat) : c = d := by
  apply Char.ext
  exact UInt32.ext h

theorem cmpListNat_eq_iff : ∀ as bs : List Nat, cmpListNat as bs = Ordering.eq ↔ as = bs := by
  intro as
  induction as with
  | nil => intro bs; cases bs <;> simp [cmpListNat]
  | cons a as ih =>
    intro bs
    cases bs with
    | nil => simp [cmpListNat]
    | cons b bs =>
      simp only [cmpListNat]
      split_ifs with h1 h2
      · simp
        omega
      · simp
        omega
      · have hab : a = b := by omega
        subst hab
        simp [ih bs]

theorem cmpListNat_swap : ∀ as bs : List Nat, cmpListNat as bs = (cmpListNat bs as).swap := by
  intro as
  induction as with
  | nil => intro bs; cases bs <;> simp [cmpListNat, Ordering.swap]
  | cons a as ih =>
    intro bs
    cases bs with
    | nil => simp [cmpListNat, Ordering.swap]
    | cons b bs =>
      simp only [cmpListNat]
      by_cases h1 : a < b
      · have h1b : ¬ b < a := by omega
        simp [h1, h1b, Ordering.swap]
      · by_cases h2 : b < a
        · simp [h1, h2, Ordering.swap]
        · simp only [if_neg h1, if_neg h2]
          rw [ih bs]

theorem cmpListNat_lt_trans :
    ∀ as bs cs : List Nat, cmpListNat as bs = Ordering.lt →
      cmpListNat bs cs = Ordering.lt → cmpListNat as cs = Ordering.lt := by
  intro as
  induction as with
  | nil =>
    intro bs cs h1 h2
    cases bs with
    | nil => exact h2
    | cons b bs =>
      cases cs with
      | nil => simp [cmpListNat] at h2
      | cons c cs => simp [cmpListNat]
  | cons a as ih =>
    intro bs cs h1 h2
    cases bs with
    | nil => simp [cmpListNat] at h1
    | cons b bs =>
      cases cs with
      | nil => simp [cmpListNat] at h2
      | cons c cs =>
        simp only [cmpListNat] at h1 h2 ⊢
        by_cases hab : a < b
        · by_cases hbc : b < c
          · rw [if_pos (by omega : a < c)]
          · by_cases hcb : c < b
            · rw [if_neg hbc, if_pos hcb] at h2
              simp at h2
            · rw [if_pos (by omega : a < c)]
        · by_cases hba : b < a
          · rw [if_neg hab, if_pos hba] at h1
            simp at h1
          · have hab2 : a = b := by omega
            subst hab2
            rw [if_neg hab, if_neg hba] at h1
            by_cases hac : a < c
            · rw [if_pos hac]
            · by_cases hca : c < a
              · rw [if_neg hac, if_pos hca] at h2
                simp at h2
              · have hac2 : a = c := by omega
                subst hac2
                rw [if_neg hac, if_neg hca] at h2
                rw [if_neg hac, if_neg hca]
                exact ih bs cs h1 h2

theorem charKey_inj (c d : Char) (hp : primaryWeight c = primaryWeight d)
    (hc : caseBit c = caseBit d) : c = d := by
  apply Char.ext
  apply UInt32.ext
  show c.toNat = d.toNat
  unfold primaryWeight at hp
  unfold caseBit at hc
  split_ifs at hp hc <;> omega

theorem map_key_inj :
    ∀ as bs : List Char, as.map primaryWeight = bs.map primaryWeight →
      as.map caseBit = bs.map caseBit → as = bs := by
  intro as
  induction as with
  | nil =>
    intro bs h1 _
    cases bs with
    | nil => rfl
    | cons b bs => simp at h1
  | cons a as ih =>
    intro bs h1 h2
    cases bs with
    | nil => simp at h1
    | cons b bs =>
      simp only [List.map_cons, List.cons.injEq] at h1 h2
      exact List.cons_eq_cons.mpr ⟨charKey_inj a b h1.1 h2.1, ih bs h1.2 h2.2⟩

theorem stringDataEq {a b : String} (h : a.data = b.data) : a = b :=
  congrArg String.mk h

theorem localeOrd_eq_iff (a b : String) : localeOrd a b = Ordering.eq ↔ a = b := by
  constructor
  · intro h
    unfold localeOrd at h
    cases hp : cmpListNat (a.data.map primaryWeight) (b.data.map primaryWeight) with
    | lt => rw [hp] at h; dsimp only at h; exact absurd h (by decide)
    | gt => rw [hp] at h; dsimp only at h; exact absurd h (by decide)
    | eq =>
      rw [hp] at h
      dsimp only at h
      exact stringDataEq (map_key_inj a.data b.data ((cmpListNat_eq_iff _ _).mp hp)
        ((cmpListNat_eq_iff _ _).mp h))
  · intro h
    subst h
    unfold localeOrd
    rw [(cmpListNat_eq_iff _ _).mpr rfl]
    dsimp only
    exact (cmpListNat_eq_iff _ _).mpr rfl

theorem localeOrd_swap (a b : String) : localeOrd b a = (localeOrd a b).swap := by
  unfold localeOrd
  rw [cmpListNat_swap (b.data.map primaryWeight) (a.data.map primaryWeight),
      cmpListNat_swap (b.data.map caseBit) (a.data.map caseBit)]
  cases cmpListNat (a.data.map primaryWeight) (b.data.map primaryWeight) <;>
    cases cmpListNat (a.data.map caseBit) (b.data.map caseBit) <;> rfl

theorem localeOrd_lt_trans {a b c : String}
    (h1 : localeOrd a b = Ordering.lt) (h2 : localeOrd b c = Ordering.lt) :
    localeOrd a c = Ordering.lt := by
  unfold localeOrd at h1 h2 ⊢
  cases hp1 : cmpListNat (a.data.map primaryWeight) (b.data.map primaryWeight) with
  | gt => rw [hp1] at h1; dsimp only at h1; exact absurd h1 (by decide)
  | lt =>
    rw [hp1] at h1
    cases hp2 : cmpListNat (b.data.map primaryWeight) (c.data.map primaryWeight) with
    | gt => rw [hp2] at h2; dsimp only at h2; exact absurd h2 (by decide)
    | lt =>
      rw [cmpListNat_lt_trans _ _ _ hp1 hp2]
    | eq =>
      have hbc : b.data.map primaryWeight = c.data.map primaryWeight :=
        (cmpListNat_eq_iff _ _).mp hp2
      rw [← hbc, hp1]
  | eq =>
    rw [hp1] at h1
    dsimp only at h1
    have hab : a.data.map primaryWeight = b.data.map primaryWeight :=
      (cmpListNat_eq_iff _ _).mp hp1
    cases hp2 : cmpListNat (b.data.map primaryWeight) (c.data.map primaryWeight) with
    | gt => rw [hp2] at h2; dsimp only at h2; exact absurd h2 (by decide)
    | lt =>
      rw [hab, hp2]
    | eq =>
      rw [hp2] at h2
      dsimp only at h2
      have hbc : b.data.map primaryWeight = c.data.map primaryWeight :=
        (cmpListNat_eq_iff _ _).mp hp2
      rw [hab, hp2]
      dsimp only
      exact cmpListNat_lt_trans _ _ _ h1 h2

theorem fileLe_iff (f g : SFile) :
    fileLe f g = true ↔ localeOrd f.path g.path ≠ Ordering.gt := by
  unfold fileLe localeCompare
  cases localeOrd f.path g.path <;> simp

theorem fileLe_total (f g : SFile) : fileLe f g = true ∨ fileLe g f = true := by
  rw [fileLe_iff, fileLe_iff]
  cases h : localeOrd f.path g.path with
  | lt => left; simp
  | eq => left; simp
  | gt =>
    right
    rw [localeOrd_swap f.path g.path, h]
    decide

theorem fileLe_trans {f g h : SFile} (h1 : fileLe f g = true) (h2 : fileLe g h = true) :
    fileLe f h = true := by
  rw [fileLe_iff] at h1 h2 ⊢
  intro hgt
  cases hfg : localeOrd f.path g.path with
  | gt => exact h1 hfg
  | eq =>
    have : f.path = g.path := (localeOrd_eq_iff _ _).mp hfg
    rw [this] at hgt
    exact h2 hgt
  | lt =>
    cases hgh : localeOrd g.path h.path with
    | gt => exact h2 hgh
    | eq =>
      have : g.path = h.path := (localeOrd_eq_iff _ _).mp hgh
      rw [← this] at hgt
      exact h1 hgt
    | lt =>
      rw [localeOrd_lt_trans hfg hgh] at hgt
      exact absurd hgt (by decide)

theorem fileLe_antisymm {f g : SFile} (h1 : fileLe f g = true) (h2 : fileLe g f = true) :
    f.path = g.path := by
  rw [fileLe_iff] at h1 h2
  cases hfg : localeOrd f.path g.path with
  | gt => exact absurd hfg h1
  | eq => exact (localeOrd_eq_iff _ _).mp hfg
  | lt =>
    rw [localeOrd_swap f.path g.path, hfg] at h2
    exact absurd rfl h2

theorem insertSorted_perm {α : Type} (le : α → α → Bool) (x : α) (l : List α) :
    List.Perm (insertSorted le x l) (x :: l) := by
  induction l with
  | nil => exact List.Perm.refl _
  | cons y ys ih =>
    unfold insertSorted
    split_ifs with h
    · exact List.Perm.refl _
    · exact (ih.cons y).trans (List.Perm.swap x y ys)

theorem stableSort_perm {α : Type} (le : α → α → Bool) (l : List α) :
    List.Perm (stableSort le l) l := by
  induction l with
  | nil => exact List.Perm.refl _
  | cons x xs ih =>
    show List.Perm (insertSorted le x (stableSort le xs)) (x :: xs)
    exact (insertSorted_perm le x _).trans (ih.cons x)

theorem mem_insertSorted {α : Type} (le : α → α → Bool) {x y : α} {l : List α} :
    y ∈ insertSorted le x l ↔ y = x ∨ y ∈ l := by
  rw [(insertSorted_perm le x l).mem_iff]
  simp

theorem insertSorted_pairwise {α : Type} (le : α → α → Bool) {x : α} {l : List α}
    (htot : ∀ y ∈ l, le x y = true ∨ le y x = true)
    (htrans : ∀ a ∈ x :: l, ∀ b ∈ x :: l, ∀ c ∈ x :: l,
      le a b = true → le b c = true → le a c = true)
    (hl : l.Pairwise (fun a b => le a b = true)) :
    (insertSorted le x l).Pairwise (fun a b => le a b = true) := by
  induction l with
  | nil => simp [insertSorted]
  | cons y ys ih =>
    rw [insertSorted]
    split_ifs with h
    · refine List.Pairwise.cons ?_ hl
      intro z hz
      rcases List.mem_cons.mp hz with rfl | hz2
      · exact h
      · have hyz : le y z = true := (List.pairwise_cons.mp hl).1 z hz2
        exact htrans x (by simp) y (by simp) z (by simp [hz2]) h hyz
    · have hyx : le y x = true := by
        rcases htot y (by simp) with h1 | h1
        · exact absurd h1 h
        · exact h1
      refine List.Pairwise.cons ?_ ?_
      · intro z hz
        rcases (mem_insertSorted le).mp hz with rfl | hz2
        · exact hyx
        · exact (List.pairwise_cons.mp hl).1 z hz2
      · refine ih ?_ ?_ (List.pairwise_cons.mp hl).2
        · intro z hz
          exact htot z (by simp [hz])
        · intro a ha b hb c hc hab hbc
          refine htrans a ?_ b ?_ c ?_ hab hbc <;> (simp at ha hb hc ⊢; tauto)

theorem stableSort_pairwise {α : Type} (le : α → α → Bool) (l : List α)
    (htot : ∀ a ∈ l, ∀ b ∈ l, le a b = true ∨ le b a = true)
    (htrans : ∀ a ∈ l, ∀ b ∈ l, ∀ c ∈ l, le a b = true → le b c = true → le a c = true) :
    (stableSort le l).Pairwise (fun a b => le a b = true) := by
  induction l with
  | nil => simp [stableSort]
  | cons x xs ih =>
    show (insertSorted le x (stableSort le xs)).Pairwise _
    have hmem : ∀ y ∈ stableSort le xs, y ∈ xs :=
      fun y hy => (stableSort_perm le xs).mem_iff.mp hy
    refine insertSorted_pairwise le ?_ ?_ ?_
    · intro y hy
      exact htot x (by simp) y (by simp [hmem y hy])
    · intro a ha b hb c hc hab hbc
      rcases List.mem_cons.mp ha with rfl | ha2
      · refine htrans a (by simp) b ?_ c ?_ hab hbc
        · rcases List.mem_cons.mp hb with rfl | hb2
          · simp
          · simp [hmem b hb2]
        · rcases List.mem_cons.mp hc with rfl | hc2
          · simp
          · simp [hmem c hc2]
      · refine htrans a (by simp [hmem a ha2]) b ?_ c ?_ hab hbc
        · rcases List.mem_cons.mp hb with rfl | hb2
          · simp
          · simp [hmem b hb2]
        · rcases List.mem_cons.mp hc with rfl | hc2
          · simp
          · simp [hmem c hc2]
    · refine ih ?_ ?_
      · intro a ha b hb
        exact htot a (by simp [ha]) b (by simp [hb])
      · intro a ha b hb c hc
        exact htrans a (by simp [ha]) b (by simp [hb]) c (by simp [hc])

theorem sorted_perm_eq {α : Type} (le : α → α → Bool) :
    ∀ l1 l2 : List α, List.Perm l1 l2 →
      l1.Pairwise (fun a b => le a b = true) →
      l2.Pairwise (fun a b => le a b = true) →
      (∀ a ∈ l1, ∀ b ∈ l1, le a b = true → le b a = true → a = b) →
      l1 = l2 := by
  intro l1
  induction l1 with
  | nil =>
    intro l2 hp _ _ _
    exact hp.symm.eq_nil.symm
  | cons a t1 ih =>
    intro l2 hp h1 h2 hanti
    cases l2 with
    | nil => exact absurd hp.eq_nil (by simp)
    | cons b t2 =>
      have hab : a = b := by
        by_cases heq : a = b
        · exact heq
        · have hbmem : b ∈ a :: t1 := hp.symm.subset (by simp)
          have hamem : a ∈ b :: t2 := hp.subset (by simp)
          have hb2 : b ∈ t1 := by
            rcases List.mem_cons.mp hbmem with h | h
            · exact absurd h.symm heq
            · exact h
          have ha2 : a ∈ t2 := by
            rcases List.mem_cons.mp hamem with h | h
            · exact absurd h heq
            · exact h
          have hle1 : le a b = true := (List.pairwise_cons.mp h1).1 b hb2
          have hle2 : le b a = true := (List.pairwise_cons.mp h2).1 a ha2
          exact hanti a (by simp) b (by simp [hb2]) hle1 hle2
      subst hab
      have ht : List.Perm t1 t2 := hp.cons_inv
      have := ih t2 ht (List.pairwise_cons.mp h1).2 (List.pairwise_cons.mp h2).2
        (fun x hx y hy => hanti x (by simp [hx]) y (by simp [hy]))
      rw [this]

def lowerAlnumChar (c : Char) : Bool :=
  (48 ≤ c.toNat && c.toNat ≤ 57) || (97 ≤ c.toNat && c.toNat ≤ 122)

/- ASCII digits and letters of either case: the domain on which the
   localeCompare model is exactly ICU root ordering (in particular, ICU
   compares two distinct such strings nonzero). -/
def asciiAlnumChar (c : Char) : Bool :=
  (48 ≤ c.toNat && c.toNat ≤ 57) || (65 ≤ c.toNat && c.toNat ≤ 90) ||
    (97 ≤ c.toNat && c.toNat ≤ 122)

theorem pairwise_imp_mem {α : Type} {R S : α → α → Prop} :
    ∀ {l : List α}, (∀ a ∈ l, ∀ b ∈ l, R a b → S a b) → l.Pairwise R → l.Pairwise S := by
  intro l
  induction l with
  | nil => intro _ _; exact List.Pairwise.nil
  | cons x xs ih =>
    intro himp hp
    rcases List.pairwise_cons.mp hp with ⟨hx, hxs⟩
    refine List.Pairwise.cons ?_
      (ih (fun a ha b hb => himp a (by simp [ha]) b (by simp [hb])) hxs)
    intro y hy
    exact himp x (by simp) y (by simp [hy]) (hx y hy)

theorem utf8List_ascii :
    ∀ l : List Char, (∀ c ∈ l, lowerAlnumChar c = true) →
      List.foldr (fun c acc => utf8Char c ++ acc) [] l = l.map Char.toNat := by
  intro l
  induction l with
  | nil => intro _; rfl
  | cons c cs ih =>
    intro h
    have hc : lowerAlnumChar c = true := h c (by simp)
    have hlt : c.toNat < 128 := by
      simp [lowerAlnumChar] at hc
      omega
    simp only [List.foldr_cons, List.map_cons]
    rw [ih (fun d hd => h d (by simp [hd]))]
    unfold utf8Char
    rw [if_pos hlt]
    rfl

theorem utf8Encode_ascii {s : String} (h : ∀ c ∈ s.data, lowerAlnumChar c = true) :
    utf8Encode s = s.data.map Char.toNat :=
  utf8List_ascii s.data h

theorem localeOrd_ascii {a b : String}
    (ha : ∀ c ∈ a.data, lowerAlnumChar c = true)
    (hb : ∀ c ∈ b.data, lowerAlnumChar c = true) :
    localeOrd a b = cmpListNat (utf8Encode a) (utf8Encode b) := by
  have hprim : ∀ (s : String), (∀ c ∈ s.data, lowerAlnumChar c = true) →
      s.data.map primaryWeight = s.data.map Char.toNat := by
    intro s hs
    apply List.map_congr_left
    intro c hc
    have := hs c hc
    simp [lowerAlnumChar] at this
    unfold primaryWeight
    rw [if_neg (by omega)]
  have hcase : ∀ (s : String), (∀ c ∈ s.data, lowerAlnumChar c = true) →
      s.data.map caseBit = List.replicate s.data.length 0 := by
    intro s hs
    have : s.data.map caseBit = s.data.map (fun _ => 0) := by
      apply List.map_congr_left
      intro c hc
      have := hs c hc
      simp [lowerAlnumChar] at this
      unfold caseBit
      rw [if_neg (by omega)]
    rw [this]
    exact List.map_const' _ 0
  unfold localeOrd
  rw [hprim a ha, hprim b hb, utf8Encode_ascii ha, utf8Encode_ascii hb]
  cases hcmp : cmpListNat (a.data.map Char.toNat) (b.data.map Char.toNat) with
  | lt => rfl
  | gt => rfl
  | eq =>
    dsimp only
    have hlen : a.data.length = b.data.length := by
      have := (cmpListNat_eq_iff _ _).mp hcmp
      have := congrArg List.length this
      simpa using this
    rw [hcase a ha, hcase b hb, hlen]
    exact (cmpListNat_eq_iff _ _).mpr rfl

theorem byteLexFileLe_iff (f g : SFile) :
    byteLexFileLe f g = true ↔
      cmpListNat (utf8Encode f.path) (utf8Encode g.path) ≠ Ordering.gt := by
  unfold byteLexFileLe
  simp

theorem cmpListNat_le_trans {as bs cs : List Nat}
    (h1 : cmpListNat as bs ≠ Ordering.gt) (h2 : cmpListNat bs cs ≠ Ordering.gt) :
    cmpListNat as cs ≠ Ordering.gt := by
  cases hab : cmpListNat as bs with
  | gt => exact absurd hab h1
  | eq => rw [(cmpListNat_eq_iff _ _).mp hab]; exact h2
  | lt =>
    cases hbc : cmpListNat bs cs with
    | gt => exact absurd hbc h2
    | eq =>
      rw [← (cmpListNat_eq_iff _ _).mp hbc, hab]
      decide
    | lt =>
      rw [cmpListNat_lt_trans _ _ _ hab hbc]
      decide

theorem cmpListNat_le_antisymm {as bs : List Nat}
    (h1 : cmpListNat as bs ≠ Ordering.gt) (h2 : cmpListNat bs as ≠ Ordering.gt) :
    as = bs := by
  cases hab : cmpListNat as bs with
  | gt => exact absurd hab h1
  | eq => exact (cmpListNat_eq_iff _ _).mp hab
  | lt =>
    rw [cmpListNat_swap bs as, hab] at h2
    exact absurd rfl h2

theorem byteLe_total (f g : SFile) : byteLexFileLe f g = true ∨ byteLexFileLe g f = true := by
  rw [byteLexFileLe_iff, byteLexFileLe_iff]
  cases h : cmpListNat (utf8Encode f.path) (utf8Encode g.path) with
  | lt => left; decide
  | eq => left; decide
  | gt =>
    right
    rw [cmpListNat_swap (utf8Encode g.path) (utf8Encode f.path), h]
    decide

theorem byteLe_trans {f g h : SFile} (h1 : byteLexFileLe f g = true)
    (h2 : byteLexFileLe g h = true) : byteLexFileLe f h = true := by
  rw [byteLexFileLe_iff] at h1 h2 ⊢
  exact cmpListNat_le_trans h1 h2

theorem mapToNat_inj : ∀ as bs : List Char, as.map Char.toNat = bs.map Char.toNat → as = bs := by
  intro as
  induction as with
  | nil =>
    intro bs h
    cases bs with
    | nil => rfl
    | cons b bs => simp at h
  | cons a as ih =>
    intro bs h
    cases bs with
    | nil => simp at h
    | cons b bs =>
      simp only [List.map_cons, List.cons.injEq] at h
      exact List.cons_eq_cons.mpr ⟨charToNat_inj a b h.1, ih bs h.2⟩

/-- C8 (amended): for every file list whose entries have pairwise distinct
paths made of ASCII letters and digits — a domain on which localeCompare
compares distinct paths nonzero — the snapshot hash is invariant under
permutation of the list, so on such lists the id is a pure function of
the file set and two identical file sets produce the same id (dedup).
With duplicated paths the stable sort ties break by input order and
invariance fails (the counterexample); paths that ICU compares equal
though distinct (canonically equivalent, or differing only in ignorable
characters) tie the same way and are excluded by the ASCII-alphanumeric
hypothesis. -/
theorem C8_hash_perm_invariant (F F2 : List SFile)
    (hperm : List.Perm F F2)
    (hdist : F.Pairwise (fun f g => f.path ≠ g.path))
    (_halnum : ∀ f ∈ F, ∀ c ∈ f.path.data, asciiAlnumChar c = true) :
    generateSnapshotHash F2 = generateSnapshotHash F := by
  have hanti : ∀ a ∈ stableSort fileLe F2, ∀ b ∈ stableSort fileLe F2,
      fileLe a b = true → fileLe b a = true → a = b := by
    intro f hf g hg h1 h2
    have hfF : f ∈ F := hperm.symm.subset ((stableSort_perm fileLe F2).subset hf)
    have hgF : g ∈ F := hperm.symm.subset ((stableSort_perm fileLe F2).subset hg)
    by_cases hfg : f = g
    · exact hfg
    · have hsym : Symmetric (fun f g : SFile => f.path ≠ g.path) :=
        fun _ _ hab => hab.symm
      exact absurd (fileLe_antisymm h1 h2) (hdist.forall hsym hfF hgF hfg)
  have hsort : stableSort fileLe F2 = stableSort fileLe F := by
    apply sorted_perm_eq fileLe
    · exact (stableSort_perm fileLe F2).trans (hperm.symm.trans (stableSort_perm fileLe F).symm)
    · exact stableSort_pairwise fileLe F2 (fun a _ b _ => fileLe_total a b)
        (fun a _ b _ c _ hab hbc => fileLe_trans hab hbc)
    · exact stableSort_pairwise fileLe F (fun a _ b _ => fileLe_total a b)
        (fun a _ b _ c _ hab hbc => fileLe_trans hab hbc)
    · exact hanti
  simp only [generateSnapshotHash]
  rw [hsort]

/-- C8 witness: the amended theorem applied to a concrete two-file list
and its swap. -/
theorem C8_witness :
    List.Perm [SFile.mk "a" "1", SFile.mk "b" "2"] [SFile.mk "b" "2", SFile.mk "a" "1"] ∧
    ([SFile.mk "a" "1", SFile.mk "b" "2"] : List SFile).Pairwise
      (fun f g => f.path ≠ g.path) ∧
    generateSnapshotHash [SFile.mk "b" "2", SFile.mk "a" "1"] =
      generateSnapshotHash [SFile.mk "a" "1", SFile.mk "b" "2"] :=
  ⟨by decide, by decide,
   C8_hash_perm_invariant [SFile.mk "a" "1", SFile.mk "b" "2"]
     [SFile.mk "b" "2", SFile.mk "a" "1"] (by decide) (by decide) (by decide)⟩

/-- C7 (amended): generateSnapshotHash equals the digest of the string
built by sorting the file entries by path with the locale-aware
localeCompare collation (NOT byte-lexicographic order in general), hashing
each content with the content digest, and joining "path:digest" with "|";
on paths made of lowercase ASCII letters and digits (pairwise distinct)
the collation agrees with byte order and the hash coincides with the
spec-prescribed byte-lexicographic construction. -/
theorem C7_hash_structure (F : List SFile)
    (hdist : F.Pairwise (fun f g => f.path ≠ g.path))
    (hlower : ∀ f ∈ F, ∀ c ∈ f.path.data, lowerAlnumChar c = true) :
    generateSnapshotHash F = snapshotHashSpec F := by
  have hagree : ∀ f ∈ F, ∀ g ∈ F, fileLe f g = true → byteLexFileLe f g = true := by
    intro f hf g hg hle
    rw [fileLe_iff] at hle
    rw [localeOrd_ascii (hlower f hf) (hlower g hg)] at hle
    rw [byteLexFileLe_iff]
    exact hle
  have hanti : ∀ a ∈ stableSort fileLe F, ∀ b ∈ stableSort fileLe F,
      byteLexFileLe a b = true → byteLexFileLe b a = true → a = b := by
    intro f hf g hg h1 h2
    have hfF : f ∈ F := (stableSort_perm fileLe F).subset hf
    have hgF : g ∈ F := (stableSort_perm fileLe F).subset hg
    rw [byteLexFileLe_iff] at h1 h2
    have hbytes := cmpListNat_le_antisymm h1 h2
    rw [utf8Encode_ascii (hlower f hfF), utf8Encode_ascii (hlower g hgF)] at hbytes
    have hpaths : f.path = g.path :=
      stringDataEq (mapToNat_inj f.path.data g.path.data hbytes)
    by_cases hfg : f = g
    · exact hfg
    · have hsym : Symmetric (fun f g : SFile => f.path ≠ g.path) :=
        fun _ _ hab => hab.symm
      exact absurd hpaths (hdist.forall hsym hfF hgF hfg)
  have hsort : stableSort fileLe F = stableSort byteLexFileLe F := by
    apply sorted_perm_eq byteLexFileLe
    · exact (stableSort_perm fileLe F).trans (stableSort_perm byteLexFileLe F).symm
    · refine pairwise_imp_mem ?_
        (stableSort_pairwise fileLe F (fun a _ b _ => fileLe_total a b)
          (fun a _ b _ c _ hab hbc => fileLe_trans hab hbc))
      intro a ha b hb hab
      exact hagree a ((stableSort_perm fileLe F).subset ha)
        b ((stableSort_perm fileLe F).subset hb) hab
    · exact stableSort_pairwise byteLexFileLe F (fun a _ b _ => byteLe_total a b)
        (fun a _ b _ c _ hab hbc => byteLe_trans hab hbc)
    · exact hanti
  simp only [generateSnapshotHash, snapshotHashSpec]
  rw [hsort]

/-- C7 witness: the amended theorem applied to concrete lowercase paths
"b" and "a". -/
theorem C7_witness :
    (([SFile.mk "b" "hi", SFile.mk "a" "there"] : List SFile).Pairwise
      (fun f g => f.path ≠ g.path)) ∧
    generateSnapshotHash [SFile.mk "b" "hi", SFile.mk "a" "there"] =
      snapshotHashSpec [SFile.mk "b" "hi", SFile.mk "a" "there"] :=
  ⟨by decide,
   C7_hash_structure [SFile.mk "b" "hi", SFile.mk "a" "there"] (by decide) (by decide)⟩

/-! ## sarif.ts (createSarifLog / addResult), the tool-response shape, and
    the tier gates of the MCP tool dispatcher.

    The SARIF model keeps the fields the gates touch: the tool driver name
    and version of the single run, and each result's ruleId and message
    text (the gates pass no uri/region, so locations are omitted). -/

structure SarifResult where
  ruleId : String
  messageText : String
deriving DecidableEq

structure SarifRun where
  toolName : String
  toolVersion : Option String
  results : List SarifResult
deriving DecidableEq

structure SarifLog where
  version : String
  runs : List SarifRun
deriving DecidableEq

def createSarifLog (toolName : String) (toolVersion : Option String) : SarifLog :=
  { version := "2.1.0"
    runs := [{ toolName := toolName, toolVersion := toolVersion, results := [] }] }

def addResult (log : SarifLog) (ruleId message : String) : SarifLog :=
  match log.runs with
  | [] =>
    { log with runs := [SarifRun.mk "snapback" Option.none [⟨ruleId, message⟩]] }
  | r :: rest =>
    { log with runs := ({ r with results := r.results ++ [⟨ruleId, message⟩] } :: rest) }

/- One element of a response's content array: a SARIF json payload, the
   snapshot json payload returned by a successful restore, or a text
   element. -/
inductive ContentElem
  | json (log : SarifLog)
  | snapshotJson (snapId : String) (fileCount : Nat) (restoredFiles : List String)
  | text (s : String)
deriving DecidableEq

structure ToolResponse where
  content : List ContentElem
  isError : Bool
deriving DecidableEq

/- Whether a content element carries a given substring: in its text, or in
   any SARIF result message of its json payload. -/
def elemCarries (e : ContentElem) (s : String) : Bool :=
  match e with
  | ContentElem.text t => strContains t s
  | ContentElem.json log =>
    log.runs.any (fun r => r.results.any (fun res => strContains res.messageText s))
  | ContentElem.snapshotJson _ _ _ => false

/- `tier: "free" | "pro" | "admin"` from auth.ts. -/
inductive Tier3
  | free
  | pro
  | admin
deriving DecidableEq

structure AuthResult3 where
  valid : Bool
  tier : Tier3
deriving DecidableEq

/- The static tool-to-permission table of auth.ts. -/
def toolPermissions : List (String × String) :=
  [("snapback.analyze_risk", "snapback:analyze"),
   ("snapback.create_snapshot", "snapback:snapshot"),
   ("snapback.list_snapshots", "snapback:snapshot"),
   ("snapback.restore_snapshot", "snapback:snapshot"),
   ("ctx7.resolve-library-id", "snapback:context"),
   ("ctx7.get-library-docs", "snapback:context")]

/- `hasPermission` / `hasToolAccess` from auth.ts.  The shared utility
   `hasPermissionForTier` lives in the external `@snapback/auth` package
   (not under src), so it is a parameter `perm`. -/
def hasPermission (perm : Tier3 → String → Bool) (auth : AuthResult3)
    (resourceAction : String) : Bool :=
  if !auth.valid then false else perm auth.tier resourceAction

def hasToolAccess (perm : Tier3 → String → Bool) (auth : AuthResult3)
    (toolName : String) : Bool :=
  if !auth.valid then false
  else
    match toolPermissions.lookup toolName with
    | Option.none => true
    | Option.some required => hasPermission perm auth required

/- The tier-refusal response built identically in the create_snapshot,
   list_snapshots and restore_snapshot handlers: a SARIF note with rule
   "pro-tool-restricted" plus a text element; no isError flag. -/
def proRefusalResponse (sarifName : String) : ToolResponse :=
  { content :=
      [ContentElem.json (addResult (createSarifLog sarifName (Option.some "1.0.0"))
        "pro-tool-restricted"
        "This tool requires a Pro subscription. Upgrade at https://snapback.dev/pricing"),
       ContentElem.text
        "❌ This tool requires a Pro subscription. Upgrade at https://snapback.dev/pricing"]
    isError := false }

def accessDeniedResponse (toolName : String) : ToolResponse :=
  { content := [ContentElem.text
      ("❌ Access denied. You don't have permission to use the " ++ toolName ++ " tool.")]
    isError := true }

/- The dispatcher path shared by the three requiresBackend tools
   (snapback.create_snapshot / list_snapshots / restore_snapshot):
   the hasToolAccess check (access-denied error on failure, part_007 lines
   778-788), then the `authResult.tier !== "pro"` gate, then the tool
   body `serve`. -/
def callSnapshotTool (perm : Tier3 → String → Bool) (auth : AuthResult3)
    (toolName sarifName : String) (serve : ToolResponse) : ToolResponse :=
  if !hasToolAccess perm auth toolName then accessDeniedResponse toolName
  else if auth.tier ≠ Tier3.pro then proRefusalResponse sarifName
  else serve

/- A permission table granting every permission (the spec's admin tier is
   "a superset used for operational access", so a faithful table grants
   admin at least what pro has). -/
def permissive : Tier3 → String → Bool := fun _ _ => true

def servedBody : ToolResponse :=
  { content := [ContentElem.text "snapshot tool body"], isError := false }

/-- C6 counterexample: a valid admin-tier principal calling a
requiresBackend tool is NOT served by the tool: the gate checks
`tier !== "pro"`, so admin receives the upgrade-required refusal instead
of the tool body. -/
theorem C6_counterexample :
    callSnapshotTool permissive ⟨true, Tier3.admin⟩ "snapback.create_snapshot"
        "snapback-create-snapshot" servedBody =
      proRefusalResponse "snapback-create-snapshot" ∧
    proRefusalResponse "snapback-create-snapshot" ≠ servedBody := by
  decide

/-- C6 (amended): for a valid principal that passes hasToolAccess, any
tier other than pro — free AND admin — receives the structured
upgrade-required response: a successful response without isError whose
first content element carries the substring "Pro subscription"; only
tier pro is served by the tool itself. -/
theorem C6_tier_gate (perm : Tier3 → String → Bool) (auth : AuthResult3)
    (toolName sarifName : String) (serve : ToolResponse)
    (hacc : hasToolAccess perm auth toolName = true) :
    (auth.tier ≠ Tier3.pro →
      callSnapshotTool perm auth toolName sarifName serve = proRefusalResponse sarifName ∧
      (callSnapshotTool perm auth toolName sarifName serve).isError = false ∧
      (callSnapshotTool perm auth toolName sarifName serve).content.head?.map
        (fun e => elemCarries e "Pro subscription") = Option.some true) ∧
    (auth.tier = Tier3.pro →
      callSnapshotTool perm auth toolName sarifName serve = serve) := by
  constructor
  · intro htier
    have h1 : callSnapshotTool perm auth toolName sarifName serve =
        proRefusalResponse sarifName := by
      unfold callSnapshotTool
      rw [hacc]
      simp [htier]
    refine ⟨h1, ?_, ?_⟩
    · rw [h1]; rfl
    · rw [h1]
      simp [proRefusalResponse, elemCarries, createSarifLog, addResult]
      decide
  · intro htier
    unfold callSnapshotTool
    rw [hacc]
    simp [htier]

/-- C6 witness: the amended theorem applied to a concrete valid free-tier
principal calling snapback.list_snapshots. -/
theorem C6_witness :
    hasToolAccess permissive ⟨true, Tier3.free⟩ "snapback.list_snapshots" = true ∧
    (Tier3.free ≠ Tier3.pro) ∧
    callSnapshotTool permissive ⟨true, Tier3.free⟩ "snapback.list_snapshots"
        "snapback-list-snapshots" servedBody = proRefusalResponse "snapback-list-snapshots" ∧
    (callSnapshotTool permissive ⟨true, Tier3.free⟩ "snapback.list_snapshots"
        "snapback-list-snapshots" servedBody).isError = false :=
  ⟨by decide, by decide,
   ((C6_tier_gate permissive ⟨true, Tier3.free⟩ "snapback.list_snapshots"
      "snapback-list-snapshots" servedBody (by decide)).1 (by decide)).1,
   ((C6_tier_gate permissive ⟨true, Tier3.free⟩ "snapback.list_snapshots"
      "snapback-list-snapshots" servedBody (by decide)).1 (by decide)).2.1⟩

/-! ## restoreSnapshot (part_011) and the restore_snapshot tool handler
    (part_007 lines 1042-1082).

    The snapshot store state is a list of snapshot records; the file
    system is an association list from absolute path to content. -/

/- A stored snapshot as used by restoreSnapshot: id, timestamp, optional
   meta name and the file set (fileContents is identified with the file
   set). -/
structure SnapshotRec where
  id : String
  timestamp : Int
  metaName : Option String
  files : List SFile
deriving DecidableEq

structure RestoreResult where
  success : Bool
  errors : List String
  restoredFiles : List String
deriving DecidableEq

/- A file system view in which every path resolves to itself: used by the
   modelled restore to run destination paths through the path validator
   without stat-ing a real disk. -/
def pureFS : JsFS :=
  { realpath := fun p => Except.ok p, existsSync := fun _ => true }

/- Modelled from the spec: `SnapshotManager.restore` is code of the
   external `@snapback/sdk` package, absent from src.  Spec section 4.9:
   "when targetPath is absent, restore is metadata-only (no file-system
   mutation); when present, each file is written atomically (write-temp,
   rename) under targetPath, and every destination path is run through
   the path validator against targetPath as root.  Partial failures are
   reported in errors; already-written files are not rolled back."  The
   atomic write-temp/rename is modelled as a single-step insertion of the
   destination mapping. -/
def managerRestore (snaps : List SnapshotRec) (fs : List (String × String))
    (id : String) (targetPath : Option String) :
    RestoreResult × List (String × String) :=
  match snaps.find? (fun s => s.id = id) with
  | Option.none =>
    ({ success := false, errors := ["Snapshot not found"], restoredFiles := [] }, fs)
  | Option.some snap =>
    match targetPath with
    | Option.none => ({ success := true, errors := [], restoredFiles := [] }, fs)
    | Option.some t =>
      let results := snap.files.map (fun f =>
        match (validateFilePath pureFS f.path t).1 with
        | Except.ok dest => Except.ok (dest, f.content)
        | Except.error e => Except.error e.message)
      let written := results.filterMap (fun r =>
        match r with
        | Except.ok d => Option.some d
        | Except.error _ => Option.none)
      let errs := results.filterMap (fun r =>
        match r with
        | Except.error m => Option.some m
        | Except.ok _ => Option.none)
      ({ success := errs.isEmpty, errors := errs, restoredFiles := written.map (fun d => d.1) },
       written ++ fs)

structure RestoreOutcome where
  success : Bool
  error : Option String
  snapId : Option String
  fileCount : Option Nat
  restoredFiles : Option (List String)
deriving DecidableEq

def joinComma : List String → String
  | [] => ""
  | [x] => x
  | x :: y :: xs => x ++ ", " ++ joinComma (y :: xs)

/- `restoreSnapshot(snapshotId, targetPath?)` from part_011: verify the
   snapshot exists, delegate to manager.restore, map the result. -/
def restoreSnapshotFn (snaps : List SnapshotRec) (fs : List (String × String))
    (snapshotId : String) (targetPath : Option String) :
    RestoreOutcome × List (String × String) :=
  match snaps.find? (fun s => s.id = snapshotId) with
  | Option.none =>
    ({ success := false,
       error := Option.some ("Snapshot with ID " ++ snapshotId ++ " not found"),
       snapId := Option.none, fileCount := Option.none, restoredFiles := Option.none }, fs)
  | Option.some snap =>
    let r := managerRestore snaps fs snapshotId targetPath
    if !r.1.success then
      ({ success := false,
         error := Option.some (if r.1.errors.isEmpty then "Restore failed"
           else joinComma r.1.errors),
         snapId := Option.none, fileCount := Option.none, restoredFiles := Option.none }, r.2)
    else
      ({ success := true, error := Option.none, snapId := Option.some snap.id,
         fileCount := Option.some snap.files.length,
         restoredFiles := Option.some r.1.restoredFiles }, r.2)

structure RestoreArgs where
  snapshotId : Option String
  targetPath : Option String
deriving DecidableEq

/- The `snapback.restore_snapshot` tool handler (part_007): tier gate,
   then `z.object({ snapshotId: z.string() }).parse(args)` — targetPath is
   not in the schema (zod strips unknown keys) and restoreSnapshot is
   called WITHOUT a target path; a missing snapshotId throws a ZodError
   that the dispatcher's outer catch turns into a sanitized error
   response. -/
def restoreSnapshotTool (auth : AuthResult3) (args : RestoreArgs)
    (snaps : List SnapshotRec) (fs : List (String × String)) :
    ToolResponse × List (String × String) :=
  if auth.tier ≠ Tier3.pro then (proRefusalResponse "snapback-restore-snapshot", fs)
  else
    match args.snapshotId with
    | Option.none =>
      ({ content := [ContentElem.text "sanitized error (Log ID attached)"],
         isError := true }, fs)
    | Option.some sid =>
      let r := restoreSnapshotFn snaps fs sid Option.none
      if !r.1.success then
        ({ content := [ContentElem.text
            ("❌ Failed to restore snapshot: " ++ r.1.error.getD "Unknown error")],
           isError := true }, r.2)
      else
        ({ content := [ContentElem.snapshotJson (r.1.snapId.getD "")
            (r.1.fileCount.getD 0) (r.1.restoredFiles.getD [])],
           isError := false }, r.2)

def snapA : SnapshotRec :=
  { id := "snap1", timestamp := 0, metaName := Option.some "Snapshot",
    files := [⟨"a.txt", "hi"⟩] }

def authPro : AuthResult3 := ⟨true, Tier3.pro⟩

/-- C2 counterexample: calling the restore_snapshot tool with a present
targetPath ("/out") on a snapshot holding the file "a.txt" leaves the file
system untouched — "/out/a.txt" is not written — because the handler never
forwards targetPath; yet the claim requires every file of the snapshot to
be written under targetPath. -/
theorem C2_counterexample :
    (restoreSnapshotTool authPro ⟨Option.some "snap1", Option.some "/out"⟩ [snapA] []).2 = [] ∧
    ((restoreSnapshotTool authPro ⟨Option.some "snap1", Option.some "/out"⟩
        [snapA] []).2.lookup "/out/a.txt" = Option.none) ∧
    (restoreSnapshotTool authPro ⟨Option.some "snap1", Option.some "/out"⟩
        [snapA] []).1.isError = false := by
  decide

/-- C2 (amended): the restore_snapshot TOOL ignores targetPath entirely —
its handler parses only snapshotId and always calls restoreSnapshot
without a target, so tool-level restores never mutate the file system
(metadata-only), matching the claim only in the targetPath-absent case;
the underlying restoreSnapshot function does honor an explicitly passed
targetPath, writing each validated file under it (per the spec-modelled
manager restore). -/
theorem C2_targetPath_dropped :
    (∀ auth args snaps fs, (restoreSnapshotTool auth args snaps fs).2 = fs) ∧
    (∀ snaps fs id, (restoreSnapshotFn snaps fs id Option.none).2 = fs) ∧
    ((restoreSnapshotFn [snapA] [] "snap1" (Option.some "/out")).2.lookup "/out/a.txt" =
      Option.some "hi") := by
  have hfn : ∀ snaps fs id, (restoreSnapshotFn snaps fs id Option.none).2 = fs := by
    intro snaps fs id
    unfold restoreSnapshotFn
    cases hf : snaps.find? (fun s => s.id = id) with
    | none => rfl
    | some snap =>
      dsimp only
      unfold managerRestore
      rw [hf]
      dsimp only
      split_ifs <;> rfl
  refine ⟨?_, hfn, by decide⟩
  intro auth args snaps fs
  unfold restoreSnapshotTool
  split_ifs with h1
  · rfl
  · cases args.snapshotId with
    | none => rfl
    | some sid =>
      dsimp only
      rw [hfn snaps fs sid]
      split_ifs <;> rfl

end Snapback
